import Mathlib

/-!
Shallow embedding of `generate.py`, a Makefile generator for small C
projects.  The program has two parts: a command-line argument parser
(`parse_arguments`) producing a flat configuration record, and a
deterministic renderer (`generate_makefile`) turning that record plus the
current calendar year into the text of a Makefile.  Python strings become
Lean `String`, Python lists become Lean `List`, the Python `None`-able
string fields become `Option String`, and Python truthiness of those
fields is modelled by `truthy`.  Fallible parsing returns `Option`.
-/

set_option maxRecDepth 20000

namespace Gen

/-- Python truthiness of an optional string: `None` and `""` are falsy. -/
def truthy : Option String → Bool
  | none => false
  | some s => !s.data.isEmpty

/-- Python `"," in value`: the value contains a comma. -/
def hasComma (v : String) : Bool := v.data.any (fun c => c == ',')

/-- Splitting a character list at every separator character, keeping empty
fields, as Python `str.split(sep)` does. -/
def splitPredCore (p : Char → Bool) : List Char → List (List Char)
  | [] => [[]]
  | c :: cs =>
    match splitPredCore p cs with
    | [] => [[]]
    | cur :: rest => if p c then [] :: cur :: rest else (c :: cur) :: rest

/-- Python `str.strip()`: remove leading and trailing whitespace. -/
def pyStrip (v : String) : String :=
  String.mk (((v.data.dropWhile Char.isWhitespace).reverse.dropWhile
    Char.isWhitespace).reverse)

/-- `value.split(",")` followed by `.strip()` on each element, as in the
`--src`, `--tests` and `--include` branches of `parse_arguments`. -/
def splitCommaTrim (v : String) : List String :=
  ((splitPredCore (fun c => c == ',') v.data).map (fun l => String.mk l)).map pyStrip

/-- Python `str.split()` with no separator: split on whitespace runs and
drop empty pieces, as in the `--flags` branch of `parse_arguments`. -/
def splitWs (v : String) : List String :=
  ((splitPredCore Char.isWhitespace v.data).filter (fun l => !l.isEmpty)).map
    (fun l => String.mk l)

/-- Python `arg.startswith("-")`. -/
def startsDash (v : String) : Bool :=
  match v.data with
  | [] => false
  | c :: _ => c == '-'

/-- Python `arg.endswith(".c")`. -/
def endsDotC (v : String) : Bool := List.isSuffixOf ['.', 'c'] v.data

/-- The mutable `config` dictionary built by `parse_arguments`. -/
structure ParseConfig where
  project_name : Option String
  binary_name : Option String
  src_files : List String
  test_files : List String
  include_dirs : List String
  extra_flags : List String
deriving Repr, DecidableEq

/-- The initial `config` dictionary of `parse_arguments` (lines 179-186). -/
def initConfig : ParseConfig :=
  { project_name := none, binary_name := none, src_files := [],
    test_files := [], include_dirs := ["./include"], extra_flags := [] }

/-- The `while i < len(args)` scanning loop of `parse_arguments`
(lines 188-263), recursing over the remaining argument tokens.  Each
recognised option consumes the immediately following token as its value
unconditionally; a missing value or an unknown `-`-prefixed token aborts
with `none` (Python returns `None`). -/
def parseLoop : ParseConfig → List String → Option ParseConfig
  | cfg, [] => some cfg
  | cfg, arg :: rest =>
    if arg = "--name" ∨ arg = "-n" then
      match rest with
      | v :: rest2 => parseLoop { cfg with project_name := some v } rest2
      | [] => none
    else if arg = "--binary" ∨ arg = "-b" then
      match rest with
      | v :: rest2 => parseLoop { cfg with binary_name := some v } rest2
      | [] => none
    else if arg = "--src" ∨ arg = "-s" then
      match rest with
      | v :: rest2 =>
        let files := if hasComma v then splitCommaTrim v else cfg.src_files ++ [v]
        parseLoop { cfg with src_files := files } rest2
      | [] => none
    else if arg = "--tests" ∨ arg = "-t" then
      match rest with
      | v :: rest2 =>
        let files := if hasComma v then splitCommaTrim v else cfg.test_files ++ [v]
        parseLoop { cfg with test_files := files } rest2
      | [] => none
    else if arg = "--include" ∨ arg = "-I" then
      match rest with
      | v :: rest2 =>
        let dirs := if hasComma v then splitCommaTrim v else [v]
        parseLoop { cfg with include_dirs := dirs } rest2
      | [] => none
    else if arg = "--flags" ∨ arg = "-f" then
      match rest with
      | v :: rest2 => parseLoop { cfg with extra_flags := splitWs v } rest2
      | [] => none
    else if startsDash arg then none
    else
      parseLoop
        (if !(truthy cfg.project_name) then { cfg with project_name := some arg }
         else if !(truthy cfg.binary_name) then { cfg with binary_name := some arg }
         else if endsDotC arg then { cfg with src_files := cfg.src_files ++ [arg] }
         else cfg) rest

/-- `parse_arguments(args)` (lines 174-269): `args` is the full `sys.argv`
including the program path at index 0, which the scan skips; fewer than
two entries yields `None`; afterwards `binary_name` defaults to
`project_name` when the former is falsy and the latter truthy. -/
def parse_arguments (args : List String) : Option ParseConfig :=
  if args.length < 2 then none
  else
    match parseLoop initConfig args.tail with
    | none => none
    | some cfg =>
      let bin := if !(truthy cfg.binary_name) && truthy cfg.project_name
        then cfg.project_name else cfg.binary_name
      some { cfg with binary_name := bin }

/-- The defaulting performed by `main` after validation (lines 315-324):
`binary_name := project_name` when falsy, `src_files := ["src/main.c"]`
when empty, and `test_files := ["tests/test_main.c"]` when non-empty but
containing only falsy entries. -/
def mainDefaults (cfg : ParseConfig) : ParseConfig :=
  { cfg with
    binary_name := if !(truthy cfg.binary_name) then cfg.project_name else cfg.binary_name,
    src_files := if cfg.src_files.isEmpty then ["src/main.c"] else cfg.src_files,
    test_files :=
      if !cfg.test_files.isEmpty && cfg.test_files.all (fun t => t.data.isEmpty)
      then ["tests/test_main.c"] else cfg.test_files }

/-- The configuration `main` hands to the renderer, or `none` when `main`
instead prints the usage text and exits with status 1 (lines 302-324):
fewer than two `sys.argv` entries, a parse failure, or a falsy
`project_name` all divert to `print_usage`, which calls `sys.exit(1)`
before any file is written. -/
def validatedConfig (argv : List String) : Option ParseConfig :=
  if argv.length < 2 then none
  else
    match parse_arguments argv with
    | none => none
    | some cfg =>
      if !(truthy cfg.project_name) then none
      else some (mainDefaults cfg)

/-- Observable outcome of `main`: either the usage-and-exit-1 path (no
output file is opened or written) or a successful run that writes the
given full Makefile text to the output file. -/
inductive MainResult where
  | usageExit : MainResult
  | success : String → MainResult
deriving Repr, DecidableEq

-- ===========================================================================
-- Renderer (generate_makefile and its constants)
-- ===========================================================================

/-- `DEFAULT_CC` (line 23). -/
def DEFAULT_CC : String := "clang-20"

/-- `DEFAULT_CFLAGS` (line 24). -/
def DEFAULT_CFLAGS : String := "-Werror -Wextra"

/-- `CRITERION_FLAGS` (line 25). -/
def CRITERION_FLAGS : String := "-lcriterion --coverage"

/-- The `MAKEFILE_HEADER` template (lines 15-21) instantiated with a year
string and a project name. -/
def MAKEFILE_HEADER (year project_name : String) : String :=
  "##\n## EPITECH PROJECT, " ++ year ++ "\n## " ++ project_name
    ++ "\n## File description:\n## Makefile\n##"

/-- `generate_makefile_header` (lines 35-40); the year is the only
non-configuration input of the renderer, formatted with `str`. -/
def generate_makefile_header (year : Nat) (project_name : String) : String :=
  MAKEFILE_HEADER (toString year) project_name

/-- Python `sep.join(pieces)`. -/
def joinSep (sep : String) : List String → String
  | [] => ""
  | [s] => s
  | s :: rest => s ++ sep ++ joinSep sep rest

/-- Python `"".join(pieces)`, used for the final `"".join(makefile)`. -/
def strJoin : List String → String
  | [] => ""
  | [s] => s
  | s :: rest => s ++ strJoin rest

/-- The `cflags` accumulation of `generate_makefile` (lines 59-64): base
flags, then one `-I` flag per include directory, then the extra flags,
each group preceded by a single space and only present when its list is
non-empty. -/
def cflagsStr (include_dirs extra_flags : List String) : String :=
  let withInc :=
    if include_dirs.isEmpty then DEFAULT_CFLAGS
    else DEFAULT_CFLAGS ++ " " ++ joinSep " " (include_dirs.map (fun inc => "-I" ++ inc))
  if extra_flags.isEmpty then withInc
  else withInc ++ " " ++ joinSep " " extra_flags

/-- The line-continuation separator joining multiple source or test files
(lines 69 and 74): a space, a backslash, a newline and two tabs. -/
def contSep : String := " \\\n\t\t"

/-- The `src_list`/`test_list` expression (lines 69 and 74): files joined
with `contSep` when there are more than one, else the single bare entry.
(Python indexes `files[0]` and would raise on an empty list, a case
`main` never produces; here the empty list renders as `""`.) -/
def srcListStr (files : List String) : String :=
  if files.length > 1 then joinSep contSep files else files.headD ""

/-- The `phony_targets` string (lines 156-158). -/
def phony_targets (test_files : List String) : String :=
  "fclean re all cs ban debug" ++ (if test_files.isEmpty then "" else " tests_run")

/-- Splitting a rendered line at spaces, to read off the entries of the
`.PHONY` declaration. -/
def spaceSplit (s : String) : List String :=
  (splitPredCore (fun c => c == ' ') s.data).map (fun l => String.mk l)

/-- The `makefile` list built by successive `makefile.append(...)` calls in
`generate_makefile` (lines 51-160), one list element per appended string,
with the test-conditional appends as conditional sublists. -/
def makefilePieces (year : Nat) (project_name binary_name : String)
    (src_files include_dirs extra_flags test_files : List String) : List String :=
  [generate_makefile_header year project_name, "\n\n",
   "CC = " ++ DEFAULT_CC ++ "\n\n",
   "CFLAGS = " ++ cflagsStr include_dirs extra_flags ++ "\n\n",
   "SRC = " ++ srcListStr src_files ++ "\n\n"]
  ++ (if test_files.isEmpty then [] else
      ["TESTS = " ++ srcListStr test_files ++ "\n\n",
       "SRC_NO_MAIN = $(filter-out %main.c, $(SRC))\n\n"])
  ++ ["NAME = " ++ binary_name ++ "\n\n", "BUILD_DIR = objects\n\n"]
  ++ (if test_files.isEmpty then [] else ["TEST_NAME = unit_tests\n\n"])
  ++ ["OBJ = $(SRC:%.c=$(BUILD_DIR)/%.o)\n\n"]
  ++ (if test_files.isEmpty then [] else
      ["TEST_OBJ = $(TESTS:%.c=$(BUILD_DIR)/%.o) $(SRC_NO_MAIN:%.c=$(BUILD_DIR)/%.o)\n\n"])
  ++ ["all: $(NAME)\n\n", "$(NAME): $(OBJ)\n", "\t$(CC) -o $(NAME) $(OBJ) -g $(CFLAGS)\n\n"]
  ++ (if test_files.isEmpty then [] else
      ["tests_run: $(TEST_OBJ)\n",
       "\t$(CC) -o $(TEST_NAME) $(TEST_OBJ) -g $(CFLAGS) " ++ CRITERION_FLAGS ++ "\n",
       "\t./$(TEST_NAME)\n",
       "\tgcovr --exclude tests/\n",
       "\tgcovr --exclude tests/ --branches\n\n"])
  ++ ["$(BUILD_DIR)/%.o: %.c\n", "\t@mkdir -p $(dir $@)\n", "\t$(CC) $(CFLAGS) -c $< -o $@\n\n",
      "clean:\n", "\trm -rf $(BUILD_DIR)\n", "\trm -Rf *.o\n"]
  ++ (if test_files.isEmpty then [] else ["\trm -rf *.gcda *.gcno\n"])
  ++ ["\n", "fclean: clean\n", "\trm -f $(NAME)\n"]
  ++ (if test_files.isEmpty then [] else ["\trm -f $(TEST_NAME)\n"])
  ++ ["\trm -Rf #*#\n", "\trm -Rf #~\n\n", "re: fclean all\n\n",
      "cs: clean fclean\n", "\tcoding-style . .\n", "\tcat *.log\n", "\tsudo rm *.log\n\n",
      "ban:\n", "\tbanned_functions write\n\n",
      "debug:\n", "\t@echo \"CC: $(CC)\"\n", "\t@echo \"CFLAGS: $(CFLAGS)\"\n",
      "\t@echo \"SRC: $(SRC)\"\n", "\t@echo \"OBJ: $(OBJ)\"\n"]
  ++ (if test_files.isEmpty then [] else
      ["\t@echo \"TESTS: $(TESTS)\"\n", "\t@echo \"TEST_OBJ: $(TEST_OBJ)\"\n",
       "\t@echo \"SRC_NO_MAIN: $(SRC_NO_MAIN)\"\n"])
  ++ ["\t@echo \"BUILD_DIR: $(BUILD_DIR)\"\n\n"]
  ++ [".PHONY: " ++ phony_targets test_files ++ "\n"]

/-- `generate_makefile` (lines 42-162): the joined Makefile text.  The
Python `test_files=None` default and the `if test_files:` truthiness
tests coincide with the empty list here. -/
def generate_makefile (year : Nat) (project_name binary_name : String)
    (src_files include_dirs extra_flags test_files : List String) : String :=
  strJoin (makefilePieces year project_name binary_name
    src_files include_dirs extra_flags test_files)

/-- `main` (lines 302-357) as a function from the calendar year and
`sys.argv` to its observable outcome: the usage/exit-1 path, or success
carrying the exact Makefile text written to disk. -/
def mainResult (year : Nat) (argv : List String) : MainResult :=
  match validatedConfig argv with
  | none => MainResult.usageExit
  | some c =>
    MainResult.success (generate_makefile year (c.project_name.getD "")
      (c.binary_name.getD "") c.src_files c.include_dirs c.extra_flags c.test_files)

-- ===========================================================================
-- Occurrence counting (for claims about the rendered text)
-- ===========================================================================

/-- Number of positions of `s` at which the pattern `t` occurs as a
contiguous sub-list. -/
def occCount (t : List Char) : List Char → Nat
  | [] => if t <+: ([] : List Char) then 1 else 0
  | c :: s => (if t <+: c :: s then 1 else 0) + occCount t s

/-- `t` occurs somewhere in `s` as a contiguous substring. -/
def occursIn (t s : String) : Prop := t.data <:+: s.data

instance (t s : String) : Decidable (occursIn t s) := by
  unfold occursIn; infer_instance

/-- The test-section variable names and target name whose absence claim C3
is about. -/
def testTokens : List String := ["TESTS", "SRC_NO_MAIN", "TEST_NAME", "TEST_OBJ", "tests_run"]

-- Fixed segments of the rendered text between the configuration-dependent
-- parts, used to state the flattened form of the rendered Makefile.

/-- Fixed text before the year in the header. -/
def segA : String := "##\n## EPITECH PROJECT, "

/-- Fixed text between the year and the project name. -/
def segB : String := "\n## "

/-- Fixed text between the project name and the `CFLAGS` value. -/
def segC : String := "\n## File description:\n## Makefile\n##\n\nCC = clang-20\n\nCFLAGS = "

/-- Fixed text between the `CFLAGS` value and the `SRC` value. -/
def segD : String := "\n\nSRC = "

/-- Fixed text between the `SRC` value and the `NAME` value when no test
files are configured. -/
def segE0 : String := "\n\nNAME = "

/-- The whole fixed tail after the `NAME` value when no test files are
configured. -/
def segF0 : String :=
  "\n\nBUILD_DIR = objects\n\nOBJ = $(SRC:%.c=$(BUILD_DIR)/%.o)\n\nall: $(NAME)\n\n$(NAME): $(OBJ)\n\t$(CC) -o $(NAME) $(OBJ) -g $(CFLAGS)\n\n$(BUILD_DIR)/%.o: %.c\n\t@mkdir -p $(dir $@)\n\t$(CC) $(CFLAGS) -c $< -o $@\n\nclean:\n\trm -rf $(BUILD_DIR)\n\trm -Rf *.o\n\nfclean: clean\n\trm -f $(NAME)\n\trm -Rf #*#\n\trm -Rf #~\n\nre: fclean all\n\ncs: clean fclean\n\tcoding-style . .\n\tcat *.log\n\tsudo rm *.log\n\nban:\n\tbanned_functions write\n\ndebug:\n\t@echo \"CC: $(CC)\"\n\t@echo \"CFLAGS: $(CFLAGS)\"\n\t@echo \"SRC: $(SRC)\"\n\t@echo \"OBJ: $(OBJ)\"\n\t@echo \"BUILD_DIR: $(BUILD_DIR)\"\n\n.PHONY: fclean re all cs ban debug\n"

/-- Fixed text between the `SRC` value and the `TESTS` value when test
files are configured. -/
def segD2 : String := "\n\nTESTS = "

/-- Fixed text between the `TESTS` value and the `NAME` value when test
files are configured. -/
def segE1 : String := "\n\nSRC_NO_MAIN = $(filter-out %main.c, $(SRC))\n\nNAME = "

/-- Fixed text from the `NAME` value up to the `tests_run` rule when test
files are configured. -/
def segF1 : String :=
  "\n\nBUILD_DIR = objects\n\nTEST_NAME = unit_tests\n\nOBJ = $(SRC:%.c=$(BUILD_DIR)/%.o)\n\nTEST_OBJ = $(TESTS:%.c=$(BUILD_DIR)/%.o) $(SRC_NO_MAIN:%.c=$(BUILD_DIR)/%.o)\n\nall: $(NAME)\n\n$(NAME): $(OBJ)\n\t$(CC) -o $(NAME) $(OBJ) -g $(CFLAGS)\n\n"

/-- The complete `tests_run` rule: target line, link action, run action,
and the two closing coverage-tool actions, the second with the
branch-coverage flag. -/
def testsRunChunk : String :=
  "tests_run: $(TEST_OBJ)\n\t$(CC) -o $(TEST_NAME) $(TEST_OBJ) -g $(CFLAGS) -lcriterion --coverage\n\t./$(TEST_NAME)\n\tgcovr --exclude tests/\n\tgcovr --exclude tests/ --branches\n\n"

/-- The whole fixed tail after the `tests_run` rule when test files are
configured. -/
def segF2 : String :=
  "$(BUILD_DIR)/%.o: %.c\n\t@mkdir -p $(dir $@)\n\t$(CC) $(CFLAGS) -c $< -o $@\n\nclean:\n\trm -rf $(BUILD_DIR)\n\trm -Rf *.o\n\trm -rf *.gcda *.gcno\n\nfclean: clean\n\trm -f $(NAME)\n\trm -f $(TEST_NAME)\n\trm -Rf #*#\n\trm -Rf #~\n\nre: fclean all\n\ncs: clean fclean\n\tcoding-style . .\n\tcat *.log\n\tsudo rm *.log\n\nban:\n\tbanned_functions write\n\ndebug:\n\t@echo \"CC: $(CC)\"\n\t@echo \"CFLAGS: $(CFLAGS)\"\n\t@echo \"SRC: $(SRC)\"\n\t@echo \"OBJ: $(OBJ)\"\n\t@echo \"TESTS: $(TESTS)\"\n\t@echo \"TEST_OBJ: $(TEST_OBJ)\"\n\t@echo \"SRC_NO_MAIN: $(SRC_NO_MAIN)\"\n\t@echo \"BUILD_DIR: $(BUILD_DIR)\"\n\n.PHONY: fclean re all cs ban debug tests_run\n"


-- ===========================================================================
-- Lemmas about occCount
-- ===========================================================================

/-- Unfolding equation of `occCount` on the empty list. -/
theorem occCount_nil_eq (t : List Char) :
    occCount t [] = if t <+: ([] : List Char) then 1 else 0 := rfl

/-- Unfolding equation of `occCount` on a cons cell. -/
theorem occCount_cons_eq (t : List Char) (c : Char) (s : List Char) :
    occCount t (c :: s) = (if t <+: c :: s then 1 else 0) + occCount t s := rfl

/-- A non-empty pattern has no occurrence in the empty list. -/
theorem occCount_nil_of_ne (t : List Char) (ht : t ≠ []) : occCount t [] = 0 := by
  rw [occCount_nil_eq, if_neg (fun h => ht (List.prefix_nil.mp h))]

/-- A pattern whose head differs from the list head is a prefix of neither. -/
theorem not_pref_cons_of_head_ne (hd : Char) (tl : List Char) (c : Char) (s : List Char)
    (h : hd ≠ c) : ¬ (hd :: tl) <+: (c :: s) := by
  rintro ⟨r, hr⟩
  rw [List.cons_append] at hr
  exact h (List.head_eq_of_cons_eq hr)

/-- Counting past a head character that cannot start the pattern. -/
theorem occCount_cons_head_ne (hd : Char) (tl : List Char) (c : Char) (s : List Char)
    (h : hd ≠ c) : occCount (hd :: tl) (c :: s) = occCount (hd :: tl) s := by
  rw [occCount_cons_eq, if_neg (not_pref_cons_of_head_ne hd tl c s h), Nat.zero_add]

/-- A pattern cannot occur in a list that avoids its head character. -/
theorem occCount_zero_of_head_notMem (hd : Char) (tl s : List Char) (h : hd ∉ s) :
    occCount (hd :: tl) s = 0 := by
  induction s with
  | nil => exact occCount_nil_of_ne _ (by simp)
  | cons c s2 ih =>
    have h1 : hd ≠ c := by
      intro he; subst he; exact h (List.mem_cons_self hd s2)
    rw [occCount_cons_head_ne hd tl c s2 h1]
    exact ih (fun hm => h (List.mem_cons_of_mem c hm))

/-- Counting past a whole block none of whose characters can start the
pattern. -/
theorem occCount_append_head_notMem (hd : Char) (tl a s : List Char)
    (h : ∀ c ∈ a, hd ≠ c) :
    occCount (hd :: tl) (a ++ s) = occCount (hd :: tl) s := by
  induction a with
  | nil => rw [List.nil_append]
  | cons c a2 ih =>
    rw [List.cons_append, occCount_cons_head_ne hd tl c _ (h c (List.mem_cons_self c a2))]
    exact ih (fun x hx => h x (List.mem_cons_of_mem c hx))

/-- If the pattern reaches past `a` inside `a ++ b`, then `a` is a prefix of
the pattern, the last character of `a` lies in the pattern, and so does the
first character of `b`; the `hspan` hypothesis forbids that situation, so a
pattern that is a prefix of `a ++ b` is already a prefix of `a`. -/
theorem pref_of_pref_append (t a b : List Char) (ha : a ≠ [])
    (hspan : ∀ c, a.getLast? = some c → c ∈ t → ∀ c2, b.head? = some c2 → c2 ∈ t → False)
    (h : t <+: a ++ b) : t <+: a := by
  rcases le_or_lt (t.length) (a.length) with hle | hlt
  · exact List.prefix_of_prefix_length_le h (List.prefix_append a b) hle
  · exfalso
    have hat : a <+: t :=
      List.prefix_of_prefix_length_le (List.prefix_append a b) h (Nat.le_of_lt hlt)
    obtain ⟨t2, ht2⟩ := hat
    have ht2ne : t2 ≠ [] := by
      intro h0
      rw [h0, List.append_nil] at ht2
      rw [ht2] at hlt
      exact Nat.lt_irrefl _ hlt
    obtain ⟨r, hr⟩ := h
    rw [← ht2, List.append_assoc] at hr
    have hb : t2 ++ r = b := List.append_cancel_left hr
    cases hga : a.getLast? with
    | none => exact ha (List.getLast?_eq_none_iff.mp hga)
    | some c =>
      have hcmem : c ∈ t := by
        rw [← ht2]
        exact List.mem_append_left _ (List.mem_of_getLast?_eq_some hga)
      cases t2 with
      | nil => exact ht2ne rfl
      | cons d t3 =>
        have hdmem : d ∈ t := by
          rw [← ht2]
          exact List.mem_append_right _ (List.mem_cons_self _ _)
        have hhead : b.head? = some d := by rw [← hb]; rfl
        exact hspan c hga hcmem d hhead hdmem

/-- Occurrence counting distributes over an append whenever no occurrence
can straddle the boundary. -/
theorem occCount_append_eq (t : List Char) (ht : t ≠ []) :
    ∀ a b : List Char,
      (∀ c, a.getLast? = some c → c ∈ t → ∀ c2, b.head? = some c2 → c2 ∈ t → False) →
      occCount t (a ++ b) = occCount t a + occCount t b := by
  intro a
  induction a with
  | nil =>
    intro b _
    rw [List.nil_append, occCount_nil_of_ne t ht, Nat.zero_add]
  | cons x a2 ih =>
    intro b hspan
    have hsub : occCount t (a2 ++ b) = occCount t a2 + occCount t b := by
      apply ih
      intro c hc hct c2 hc2 hct2
      apply hspan c ?_ hct c2 hc2 hct2
      cases a2 with
      | nil => simp at hc
      | cons y a3 => rw [List.getLast?_cons_cons]; exact hc
    rw [List.cons_append, occCount_cons_eq, hsub, occCount_cons_eq]
    have hiff : (t <+: x :: (a2 ++ b)) ↔ (t <+: x :: a2) := by
      constructor
      · intro h
        apply pref_of_pref_append t (x :: a2) b (by simp) hspan
        rw [List.cons_append]
        exact h
      · rintro ⟨r, hr⟩
        exact ⟨r ++ b, by rw [← List.append_assoc, hr, List.cons_append]⟩
    simp only [hiff]
    omega

/-- Building the straddle-exclusion hypothesis from the last character of
the left block. -/
theorem spanL (t a b : List Char) (c0 : Char) (ha : a.getLast? = some c0) (hc0 : c0 ∉ t) :
    ∀ c, a.getLast? = some c → c ∈ t → ∀ c2, b.head? = some c2 → c2 ∈ t → False := by
  intro c hc hct c2 _ _
  rw [ha] at hc
  cases hc
  exact hc0 hct

/-- Building the straddle-exclusion hypothesis from the first character of
the right block. -/
theorem spanR (t a b : List Char) (c0 : Char) (hb : b.head? = some c0) (hc0 : c0 ∉ t) :
    ∀ c, a.getLast? = some c → c ∈ t → ∀ c2, b.head? = some c2 → c2 ∈ t → False := by
  intro c _ _ c2 hc2 hct2
  rw [hb] at hc2
  cases hc2
  exact hc0 hct2

/-- Building the straddle-exclusion hypothesis when no character of the left
block lies in the pattern. -/
theorem spanLall (t a b : List Char) (hall : ∀ c ∈ a, c ∉ t) :
    ∀ c, a.getLast? = some c → c ∈ t → ∀ c2, b.head? = some c2 → c2 ∈ t → False := by
  intro c hc hct c2 _ _
  exact (hall c (List.mem_of_getLast?_eq_some hc)) hct


/-- `occCount` vanishes exactly when the pattern does not occur as a
contiguous sub-list. -/
theorem occCount_eq_zero_iff (t : List Char) : ∀ s, occCount t s = 0 ↔ ¬ t <:+: s := by
  intro s
  induction s with
  | nil =>
    rw [occCount_nil_eq]
    by_cases h : t <+: ([] : List Char)
    · simp [h, List.prefix_nil.mp h]
    · have hne : t ≠ [] := fun he => h (List.prefix_nil.mpr he)
      simp [h, List.infix_nil, hne]
  | cons c s2 ih =>
    rw [occCount_cons_eq]
    by_cases hp : t <+: c :: s2
    · simp [hp, List.infix_cons_iff]
    · simp [hp, List.infix_cons_iff, ih]

/-- `occursIn` holds exactly when the occurrence count is positive. -/
theorem occursIn_iff (t s : String) : occursIn t s ↔ occCount t.data s.data ≠ 0 := by
  constructor
  · intro hi hz
    exact (occCount_eq_zero_iff t.data s.data).mp hz hi
  · intro hnz
    by_contra hni
    exact hnz ((occCount_eq_zero_iff t.data s.data).mpr hni)

/-- Deriving non-occurrence from a vanishing count. -/
theorem not_occursIn (t s : String) (h : occCount t.data s.data = 0) : ¬ occursIn t s :=
  fun hi => (occursIn_iff t s).mp hi h

/-- `strJoin` peels off its first element. -/
theorem strJoin_cons (s : String) (L : List String) : strJoin (s :: L) = s ++ strJoin L := by
  cases L with
  | nil =>
    apply String.ext
    show s.data = (s ++ "").data
    rw [String.data_append]
    exact (List.append_nil s.data).symm
  | cons s2 L2 => rfl

/-- `strJoin` distributes over list concatenation. -/
theorem strJoin_append (L1 L2 : List String) :
    strJoin (L1 ++ L2) = strJoin L1 ++ strJoin L2 := by
  induction L1 with
  | nil =>
    apply String.ext
    rw [List.nil_append, String.data_append]
    rfl
  | cons s L1' ih =>
    rw [List.cons_append, strJoin_cons, ih, strJoin_cons, String.append_assoc]

/-- Occurrence counting over a join of pieces, when every piece ends in a
character outside the pattern so that no occurrence can straddle a piece
boundary. -/
theorem occCount_strJoin (t : List Char) (ht : t ≠ []) :
    ∀ L : List String,
      (∀ s ∈ L, ∀ c, s.data.getLast? = some c → c ∉ t) →
      occCount t (strJoin L).data = (L.map (fun s => occCount t s.data)).sum := by
  intro L
  induction L with
  | nil =>
    intro _
    show occCount t [] = 0
    exact occCount_nil_of_ne t ht
  | cons s L2 ih =>
    intro h
    rw [strJoin_cons, String.data_append]
    rw [occCount_append_eq t ht _ _ ?span]
    case span =>
      intro c hc hct c2 _ _
      exact (h s (List.mem_cons_self s L2) c hc) hct
    rw [ih (fun s2 hs2 => h s2 (List.mem_cons_of_mem s hs2))]
    simp


/-- For digit values, `Nat.digitChar` yields a digit character. -/
theorem digitChar_isDigit (d : Nat) (h : d < 10) : (Nat.digitChar d).isDigit = true := by
  interval_cases d <;> decide

/-- `Nat.toDigitsCore` with base 10 only ever prepends digit characters. -/
theorem toDigitsCore_all_digits :
    ∀ (fuel n : Nat) (ds : List Char), (∀ c ∈ ds, c.isDigit = true) →
      ∀ c ∈ Nat.toDigitsCore 10 fuel n ds, c.isDigit = true := by
  intro fuel
  induction fuel with
  | zero =>
    intro n ds h c hc
    exact h c hc
  | succ fuel ih =>
    intro n ds h c hc
    rw [Nat.toDigitsCore] at hc
    have hcons : ∀ x ∈ Nat.digitChar (n % 10) :: ds, x.isDigit = true := by
      intro x hx
      rcases List.mem_cons.mp hx with hx1 | hx2
      · rw [hx1]; exact digitChar_isDigit _ (Nat.mod_lt n (by omega))
      · exact h x hx2
    by_cases hz : n / 10 = 0
    · rw [if_pos hz] at hc
      exact hcons c hc
    · rw [if_neg hz] at hc
      exact ih (n / 10) _ hcons c hc

/-- The decimal rendering of a natural number consists of digit
characters only. -/
theorem repr_all_digits (n : Nat) : ∀ c ∈ (toString n).data, c.isDigit = true := by
  intro c hc
  have he : (toString n).data = Nat.toDigitsCore 10 (n + 1) n [] := rfl
  rw [he] at hc
  exact toDigitsCore_all_digits (n + 1) n [] (by intro x hx; cases hx) c hc

/-- A pattern starting with a non-digit character never occurs in the
decimal rendering of a natural number. -/
theorem occCount_year_zero (hd : Char) (tl : List Char) (year : Nat)
    (h : hd.isDigit = false) : occCount (hd :: tl) (toString year).data = 0 := by
  apply occCount_zero_of_head_notMem
  intro hmem
  have := repr_all_digits year hd hmem
  rw [this] at h
  cases h

/-- `occCount` over `joinSep` vanishes when it vanishes on every piece and
the separator consists of characters outside the pattern. -/
theorem occCount_joinSep_zero (hd : Char) (tl : List Char) (sep : String)
    (hsep : ∀ c ∈ sep.data, c ∉ hd :: tl) (hsepne : sep.data ≠ []) :
    ∀ L : List String, (∀ p ∈ L, occCount (hd :: tl) p.data = 0) →
      occCount (hd :: tl) (joinSep sep L).data = 0 := by
  intro L
  induction L with
  | nil =>
    intro _
    exact occCount_nil_of_ne _ (by simp)
  | cons p L2 ih =>
    intro h
    cases L2 with
    | nil => exact h p (List.mem_cons_self p [])
    | cons p2 L3 =>
      show occCount (hd :: tl) ((p ++ sep ++ joinSep sep (p2 :: L3))).data = 0
      rw [String.data_append, String.data_append, List.append_assoc]
      rw [occCount_append_eq _ (by simp) _ _ ?span]
      case span =>
        intro c _ hct c2 hc2 hct2
        cases hds : sep.data with
        | nil => exact hsepne hds
        | cons s0 srest =>
          rw [hds, List.cons_append, List.head?_cons] at hc2
          cases hc2
          exact hsep c2 (by rw [hds]; exact List.mem_cons_self c2 srest) hct2
      rw [h p (List.mem_cons_self p (p2 :: L3))]
      rw [occCount_append_head_notMem hd tl sep.data _
        (fun c hc => fun he => hsep c hc (he ▸ List.mem_cons_self hd tl))]
      rw [ih (fun q hq => h q (List.mem_cons_of_mem p hq))]


/-- A pattern whose head is not a newline does not occur in `"\n\n"`. -/
theorem occCount_nn_zero (hd : Char) (tl : List Char) (h : hd ≠ '\n') :
    occCount (hd :: tl) ("\n\n" : String).data = 0 := by
  apply occCount_zero_of_head_notMem
  intro hm
  have he : ("\n\n" : String).data = ['\n', '\n'] := rfl
  rw [he] at hm
  simp at hm
  exact h hm

/-- The `CFLAGS` value contains no occurrence of a pattern that avoids the
base flags, every include directory, every extra flag, the space, and whose
head is neither `-` nor `I`. -/
theorem occCount_cflags_zero (hd : Char) (tl : List Char) (incs flags : List String)
    (hsp : ' ' ∉ hd :: tl)
    (hbase : occCount (hd :: tl) DEFAULT_CFLAGS.data = 0)
    (hdash : hd ≠ '-') (hI : hd ≠ 'I')
    (hincs : ∀ i ∈ incs, occCount (hd :: tl) i.data = 0)
    (hflags : ∀ f ∈ flags, occCount (hd :: tl) f.data = 0) :
    occCount (hd :: tl) (cflagsStr incs flags).data = 0 := by
  have hspace : ∀ c ∈ (" " : String).data, c ∉ hd :: tl := by
    intro c hc
    have hone : (" " : String).data = [' '] := rfl
    rw [hone] at hc
    simp at hc
    rw [hc]
    exact hsp
  have hdne : hd ≠ ' ' := fun he => hsp (he ▸ List.mem_cons_self hd tl)
  have hmap : ∀ p ∈ incs.map (fun inc => "-I" ++ inc), occCount (hd :: tl) p.data = 0 := by
    intro p hp
    obtain ⟨i, hi, rfl⟩ := List.mem_map.mp hp
    show occCount (hd :: tl) ('-' :: 'I' :: i.data) = 0
    rw [occCount_cons_head_ne hd tl '-' _ hdash, occCount_cons_head_ne hd tl 'I' _ hI]
    exact hincs i hi
  have hw : occCount (hd :: tl)
      (if incs.isEmpty then DEFAULT_CFLAGS
       else DEFAULT_CFLAGS ++ " " ++ joinSep " " (incs.map (fun inc => "-I" ++ inc))).data
      = 0 := by
    by_cases hie : incs.isEmpty
    · rw [if_pos hie]; exact hbase
    · rw [if_neg hie]
      rw [String.data_append, String.data_append, List.append_assoc]
      rw [occCount_append_eq _ (by simp) DEFAULT_CFLAGS.data
        ((" " : String).data ++ (joinSep " " (incs.map (fun inc => "-I" ++ inc))).data)
        (spanR _ _ _ ' ' rfl hsp)]
      rw [hbase]
      show 0 + occCount (hd :: tl)
        (' ' :: (joinSep " " (incs.map fun inc => "-I" ++ inc)).data) = 0
      rw [occCount_cons_head_ne hd tl ' ' _ hdne]
      rw [occCount_joinSep_zero hd tl " " hspace (by decide) _ hmap]
  simp only [cflagsStr]
  by_cases hfe : flags.isEmpty
  · rw [if_pos hfe]; exact hw
  · rw [if_neg hfe]
    rw [String.data_append, String.data_append, List.append_assoc]
    rw [occCount_append_eq _ (by simp)
      (if incs.isEmpty then DEFAULT_CFLAGS
       else DEFAULT_CFLAGS ++ " " ++ joinSep " " (incs.map (fun inc => "-I" ++ inc))).data
      ((" " : String).data ++ (joinSep " " flags).data)
      (spanR _ _ _ ' ' rfl hsp)]
    rw [hw]
    show 0 + occCount (hd :: tl) (' ' :: (joinSep " " flags).data) = 0
    rw [occCount_cons_head_ne hd tl ' ' _ hdne]
    rw [occCount_joinSep_zero hd tl " " hspace (by decide) _ hflags]

/-- The joined source/test list contains no occurrence of a pattern that
avoids every file name and the separator characters. -/
theorem occCount_srcList_zero (hd : Char) (tl : List Char) (files : List String)
    (hsep : ∀ c ∈ contSep.data, c ∉ hd :: tl)
    (hfiles : ∀ f ∈ files, occCount (hd :: tl) f.data = 0) :
    occCount (hd :: tl) (srcListStr files).data = 0 := by
  unfold srcListStr
  by_cases hlen : files.length > 1
  · rw [if_pos hlen]
    exact occCount_joinSep_zero hd tl contSep hsep (by decide) files hfiles
  · rw [if_neg hlen]
    cases files with
    | nil => exact occCount_nil_of_ne _ (by simp)
    | cons f fs => exact hfiles f (List.mem_cons_self f fs)

/-- The rendered header contains no occurrence of a pattern that avoids its
fixed parts and the project name, does not start with a digit, and avoids
the space and newline characters. -/
theorem occCount_header_zero (hd : Char) (tl : List Char) (year : Nat) (pn : String)
    (hsp : ' ' ∉ hd :: tl) (hnl : '\n' ∉ hd :: tl)
    (hdig : hd.isDigit = false)
    (hA : occCount (hd :: tl) segA.data = 0)
    (hB : occCount (hd :: tl) segB.data = 0)
    (hT : occCount (hd :: tl) ("\n## File description:\n## Makefile\n##" : String).data = 0)
    (hpn : occCount (hd :: tl) pn.data = 0) :
    occCount (hd :: tl) (generate_makefile_header year pn).data = 0 := by
  show occCount (hd :: tl)
    ((segA ++ toString year ++ segB ++ pn ++ "\n## File description:\n## Makefile\n##")).data = 0
  simp only [String.data_append]
  rw [occCount_append_eq _ (by simp)
    (segA.data ++ (toString year).data ++ segB.data ++ pn.data)
    (("\n## File description:\n## Makefile\n##" : String).data)
    (spanR _ _ _ '\n' rfl hnl)]
  rw [occCount_append_eq _ (by simp)
    (segA.data ++ (toString year).data ++ segB.data) (pn.data)
    (spanL _ _ _ ' ' (by rw [List.getLast?_append]; rfl) hsp)]
  rw [occCount_append_eq _ (by simp)
    (segA.data ++ (toString year).data) (segB.data)
    (spanR _ _ _ '\n' rfl hnl)]
  rw [occCount_append_eq _ (by simp) (segA.data) ((toString year).data)
    (spanL _ _ _ ' ' rfl hsp)]
  rw [hA, hB, hT, hpn, occCount_year_zero hd tl year hdig]

/-- The `NAME` definition piece contains no occurrence of a pattern that
avoids its label, the binary name, the space and the newline. -/
theorem occCount_namePiece_zero (hd : Char) (tl : List Char) (bn : String)
    (hsp : ' ' ∉ hd :: tl) (hnl : '\n' ∉ hd :: tl)
    (hpre : occCount (hd :: tl) ("NAME = " : String).data = 0)
    (hbn : occCount (hd :: tl) bn.data = 0) :
    occCount (hd :: tl) ("NAME = " ++ bn ++ "\n\n").data = 0 := by
  simp only [String.data_append]
  rw [occCount_append_eq _ (by simp)
    (("NAME = " : String).data ++ bn.data) (("\n\n" : String).data)
    (spanR _ _ _ '\n' rfl hnl)]
  rw [occCount_append_eq _ (by simp) (("NAME = " : String).data) (bn.data)
    (spanL _ _ _ ' ' rfl hsp)]
  have hdnl : hd ≠ '\n' := fun he => hnl (he ▸ List.mem_cons_self hd tl)
  rw [hpre, hbn, occCount_nn_zero hd tl hdnl]

/-- A labelled file-list definition piece (the `SRC` and `TESTS` lines)
contains no occurrence of a pattern that avoids the label, the files, the
separator characters and the newline. -/
theorem occCount_labeledList_zero (hd : Char) (tl : List Char) (label : String)
    (files : List String)
    (hsp : ' ' ∉ hd :: tl) (hnl : '\n' ∉ hd :: tl)
    (hlab : occCount (hd :: tl) label.data = 0)
    (hlablast : label.data.getLast? = some ' ')
    (hsep : ∀ c ∈ contSep.data, c ∉ hd :: tl)
    (hfiles : ∀ f ∈ files, occCount (hd :: tl) f.data = 0) :
    occCount (hd :: tl) ((label ++ srcListStr files ++ "\n\n")).data = 0 := by
  simp only [String.data_append]
  rw [occCount_append_eq _ (by simp)
    (label.data ++ (srcListStr files).data) (("\n\n" : String).data)
    (spanR _ _ _ '\n' rfl hnl)]
  rw [occCount_append_eq _ (by simp) (label.data) ((srcListStr files).data)
    (spanL _ _ _ ' ' hlablast hsp)]
  have hdnl : hd ≠ '\n' := fun he => hnl (he ▸ List.mem_cons_self hd tl)
  rw [hlab, occCount_srcList_zero hd tl files hsep hfiles, occCount_nn_zero hd tl hdnl]


/-- The last character of an append is the last character of its non-empty
right part. -/
theorem lastOfAppend (x y : String) (c0 : Char) (hy : y.data.getLast? = some c0) :
    (x ++ y).data.getLast? = some c0 := by
  rw [String.data_append, List.getLast?_append, hy]
  rfl

/-- Strings ending in a newline satisfy the piece-boundary condition. -/
theorem lastNl (x : String) (hx : x.data.getLast? = some '\n') :
    ∀ c, x.data.getLast? = some c → c = '\n' ∨ c = '#' := by
  intro c hc
  rw [hx] at hc
  cases hc
  exact Or.inl rfl

/-- Strings ending in a hash mark satisfy the piece-boundary condition. -/
theorem lastPound (x : String) (hx : x.data.getLast? = some '#') :
    ∀ c, x.data.getLast? = some c → c = '\n' ∨ c = '#' := by
  intro c hc
  rw [hx] at hc
  cases hc
  exact Or.inr rfl

/-- Every piece appended by `generate_makefile` ends in a newline or (for
the header) a hash mark. -/
theorem makefilePieces_lastChar (year : Nat) (pn bn : String)
    (srcs incs flags tests : List String) :
    ∀ s ∈ makefilePieces year pn bn srcs incs flags tests,
      ∀ c, s.data.getLast? = some c → c = '\n' ∨ c = '#' := by
  intro s hs
  by_cases ht : tests.isEmpty
  · simp only [makefilePieces, ht, if_true, List.nil_append, List.append_nil,
      List.cons_append, List.mem_cons, List.not_mem_nil, or_false] at hs
    rcases hs with rfl|rfl|rfl|rfl|rfl|rfl|rfl|rfl|rfl|rfl|rfl|rfl|rfl|rfl|rfl|rfl|rfl|rfl|rfl|rfl|rfl|rfl|rfl|rfl|rfl|rfl|rfl|rfl|rfl|rfl|rfl|rfl|rfl|rfl|rfl|rfl <;>
      first
        | exact lastNl _ rfl
        | exact lastNl _ (lastOfAppend _ _ '\n' rfl)
        | exact lastPound _ (lastOfAppend _ _ '#' rfl)
  · simp [makefilePieces, ht] at hs
    rcases hs with rfl|rfl|rfl|rfl|rfl|rfl|rfl|rfl|rfl|rfl|rfl|rfl|rfl|rfl|rfl|rfl|rfl|rfl|rfl|rfl|rfl|rfl|rfl|rfl|rfl|rfl|rfl|rfl|rfl|rfl|rfl|rfl|rfl|rfl|rfl|rfl|rfl|rfl|rfl|rfl|rfl|rfl|rfl|rfl|rfl|rfl|rfl|rfl|rfl|rfl <;>
      first
        | exact lastNl _ rfl
        | exact lastNl _ (lastOfAppend _ _ '\n' rfl)
        | exact lastPound _ (lastOfAppend _ _ '#' rfl)

/-- Counting occurrences in the rendered Makefile piece by piece: valid for
any pattern that avoids the newline and hash characters. -/
theorem occCount_render (t : List Char) (ht : t ≠ []) (hnl : '\n' ∉ t) (hpound : '#' ∉ t)
    (year : Nat) (pn bn : String) (srcs incs flags tests : List String) :
    occCount t (generate_makefile year pn bn srcs incs flags tests).data =
      ((makefilePieces year pn bn srcs incs flags tests).map
        (fun s => occCount t s.data)).sum := by
  apply occCount_strJoin t ht
  intro s hs c hc
  rcases makefilePieces_lastChar year pn bn srcs incs flags tests s hs c hc with rfl | rfl
  · exact hnl
  · exact hpound


/-- Converse direction of `not_occursIn`. -/
theorem occCount_zero_of_not_occursIn (t s : String) (h : ¬ occursIn t s) :
    occCount t.data s.data = 0 := by
  by_contra hne
  exact h ((occursIn_iff t s).mpr hne)

/-- The whole `CFLAGS` definition piece contains no occurrence of a pattern
that avoids its label, its value and the newline. -/
theorem occCount_cflagsPiece_zero (hd : Char) (tl : List Char) (incs flags : List String)
    (hsp : ' ' ∉ hd :: tl) (hnl : '\n' ∉ hd :: tl)
    (hpre : occCount (hd :: tl) ("CFLAGS = " : String).data = 0)
    (hbase : occCount (hd :: tl) DEFAULT_CFLAGS.data = 0)
    (hdash : hd ≠ '-') (hI : hd ≠ 'I')
    (hincs : ∀ i ∈ incs, occCount (hd :: tl) i.data = 0)
    (hflags : ∀ f ∈ flags, occCount (hd :: tl) f.data = 0) :
    occCount (hd :: tl) ("CFLAGS = " ++ cflagsStr incs flags ++ "\n\n").data = 0 := by
  simp only [String.data_append]
  rw [occCount_append_eq _ (by simp)
    (("CFLAGS = " : String).data ++ (cflagsStr incs flags).data) (("\n\n" : String).data)
    (spanR _ _ _ '\n' rfl hnl)]
  rw [occCount_append_eq _ (by simp) (("CFLAGS = " : String).data) ((cflagsStr incs flags).data)
    (spanL _ _ _ ' ' rfl hsp)]
  have hdnl : hd ≠ '\n' := fun he => hnl (he ▸ List.mem_cons_self hd tl)
  rw [hpre, occCount_cflags_zero hd tl incs flags hsp hbase hdash hI hincs hflags,
    occCount_nn_zero hd tl hdnl]

-- ===========================================================================
-- The claims
-- ===========================================================================

/-- C2: a `--src`/`-s` (resp. `--tests`/`-t`) value containing a comma
replaces the accumulated list with the comma-split, whitespace-trimmed
elements, while a bare value appends; in particular
`--src a.c,b.c --src c.c` yields `["a.c", "b.c", "c.c"]`. -/
theorem claim_C2 :
    (∀ (cfg : ParseConfig) (v : String) (rest : List String),
      parseLoop cfg ("--src" :: v :: rest) =
        parseLoop
          { cfg with
            src_files :=
              if hasComma v then splitCommaTrim v
              else cfg.src_files ++ [v] }
          rest)
    ∧ (∀ (cfg : ParseConfig) (v : String) (rest : List String),
      parseLoop cfg ("-s" :: v :: rest) =
        parseLoop
          { cfg with
            src_files :=
              if hasComma v then splitCommaTrim v
              else cfg.src_files ++ [v] }
          rest)
    ∧ (∀ (cfg : ParseConfig) (v : String) (rest : List String),
      parseLoop cfg ("--tests" :: v :: rest) =
        parseLoop
          { cfg with
            test_files :=
              if hasComma v then splitCommaTrim v
              else cfg.test_files ++ [v] }
          rest)
    ∧ (∀ (cfg : ParseConfig) (v : String) (rest : List String),
      parseLoop cfg ("-t" :: v :: rest) =
        parseLoop
          { cfg with
            test_files :=
              if hasComma v then splitCommaTrim v
              else cfg.test_files ++ [v] }
          rest)
    ∧ (parse_arguments ["prog", "--src", "a.c,b.c", "--src", "c.c"]).map ParseConfig.src_files
        = some ["a.c", "b.c", "c.c"] :=
  ⟨fun cfg v rest => rfl, fun cfg v rest => rfl, fun cfg v rest => rfl,
   fun cfg v rest => rfl, by decide⟩

/-- C7: an `--include`/`-I` value containing a comma replaces
`include_dirs` with the comma-split, whitespace-trimmed elements, while a
bare value replaces it with the one-element list (never appends); a
concrete bare value discards the default `./include`. -/
theorem claim_C7 :
    (∀ (cfg : ParseConfig) (v : String) (rest : List String),
      parseLoop cfg ("--include" :: v :: rest) =
        parseLoop
          { cfg with
            include_dirs :=
              if hasComma v then splitCommaTrim v
              else [v] }
          rest)
    ∧ (∀ (cfg : ParseConfig) (v : String) (rest : List String),
      parseLoop cfg ("-I" :: v :: rest) =
        parseLoop
          { cfg with
            include_dirs :=
              if hasComma v then splitCommaTrim v
              else [v] }
          rest)
    ∧ (parse_arguments ["prog", "--include", "inc2"]).map ParseConfig.include_dirs
        = some ["inc2"]
    ∧ (parse_arguments ["prog", "--include", " a , b "]).map ParseConfig.include_dirs
        = some ["a", "b"] :=
  ⟨fun cfg v rest => rfl, fun cfg v rest => rfl, by decide, by decide⟩

/-- C10: a recognised option consumes the next token as its value
unconditionally, even when that token starts with the option prefix;
`["prog", "--src", "--tests"]` parses successfully with
`src_files = ["--tests"]` and no test files. -/
theorem claim_C10 :
    parse_arguments ["prog", "--src", "--tests"]
      = some { initConfig with src_files := ["--tests"] }
    ∧ (∀ (cfg : ParseConfig) (v : String) (rest : List String),
      parseLoop cfg ("--name" :: v :: rest) =
        parseLoop { cfg with project_name := some v } rest)
    ∧ (∀ (cfg : ParseConfig) (v : String) (rest : List String),
      parseLoop cfg ("--binary" :: v :: rest) =
        parseLoop { cfg with binary_name := some v } rest)
    ∧ (∀ (cfg : ParseConfig) (v : String) (rest : List String),
      parseLoop cfg ("--flags" :: v :: rest) =
        parseLoop { cfg with extra_flags := splitWs v } rest) :=
  ⟨by decide, fun cfg v rest => rfl, fun cfg v rest => rfl, fun cfg v rest => rfl⟩

/-- C5: every failing invocation (fewer than two `sys.argv` entries, a
parse failure, or a falsy project name after parsing) takes the
usage-and-exit-1 path, on which no Makefile content is produced. -/
theorem claim_C5 (year : Nat) (argv : List String)
    (h : argv.length < 2 ∨ parse_arguments argv = none ∨
      ∃ cfg, parse_arguments argv = some cfg ∧ truthy cfg.project_name = false) :
    mainResult year argv = MainResult.usageExit := by
  have hv : validatedConfig argv = none := by
    unfold validatedConfig
    by_cases hlen : argv.length < 2
    · rw [if_pos hlen]
    · rw [if_neg hlen]
      rcases h with h1 | h2 | ⟨cfg, hc, hp⟩
      · exact absurd h1 hlen
      · rw [h2]
      · rw [hc]
        show (if (!truthy cfg.project_name) = true then none
          else some (mainDefaults cfg) : Option ParseConfig) = none
        rw [hp]
        rfl
  unfold mainResult
  rw [hv]

/-- Witness for C5 at the empty argument list. -/
theorem claim_C5_witness : mainResult 2025 [] = MainResult.usageExit :=
  claim_C5 2025 [] (Or.inl (by decide))

/-- C6: whenever parsing and validation succeed, the resulting
configuration has truthy (non-`None`, non-empty) binary and project
names. -/
theorem claim_C6 (argv : List String) (cfg : ParseConfig)
    (h : validatedConfig argv = some cfg) :
    truthy cfg.binary_name = true ∧ truthy cfg.project_name = true := by
  unfold validatedConfig at h
  by_cases hlen : argv.length < 2
  · rw [if_pos hlen] at h; cases h
  · rw [if_neg hlen] at h
    cases hp : parse_arguments argv with
    | none => rw [hp] at h; cases h
    | some cfg0 =>
      rw [hp] at h
      have h3 : (if (!truthy cfg0.project_name) = true then none
          else some (mainDefaults cfg0) : Option ParseConfig) = some cfg := h
      by_cases hpn : (!truthy cfg0.project_name) = true
      · rw [if_pos hpn] at h3; cases h3
      · rw [if_neg hpn] at h3
        injection h3 with h2
        subst h2
        have hpt : truthy cfg0.project_name = true := by
          revert hpn
          cases truthy cfg0.project_name <;> simp
        constructor
        · show truthy (if (!truthy cfg0.binary_name) = true then cfg0.project_name
            else cfg0.binary_name) = true
          by_cases hb : (!truthy cfg0.binary_name) = true
          · rw [if_pos hb]; exact hpt
          · rw [if_neg hb]
            revert hb
            cases truthy cfg0.binary_name <;> simp
        · exact hpt

/-- Witness for C6 at `["prog", "demo"]`. -/
theorem claim_C6_witness :
    truthy (ParseConfig.mk (some "demo") (some "demo") ["src/main.c"] []
      ["./include"] []).binary_name = true
    ∧ truthy (ParseConfig.mk (some "demo") (some "demo") ["src/main.c"] []
      ["./include"] []).project_name = true :=
  claim_C6 ["prog", "demo"] _ (by decide)

/-- C9: rendering is deterministic and depends only on the configuration
fields and the calendar year: equal inputs give byte-identical output. -/
theorem claim_C9 (y1 y2 : Nat) (pn1 pn2 bn1 bn2 : String)
    (s1 s2 i1 i2 f1 f2 t1 t2 : List String)
    (hy : y1 = y2) (hpn : pn1 = pn2) (hbn : bn1 = bn2) (hs : s1 = s2)
    (hi : i1 = i2) (hf : f1 = f2) (htt : t1 = t2) :
    generate_makefile y1 pn1 bn1 s1 i1 f1 t1 = generate_makefile y2 pn2 bn2 s2 i2 f2 t2 := by
  subst hy
  subst hpn
  subst hbn
  subst hs
  subst hi
  subst hf
  subst htt
  rfl

/-- Witness for C9 at a concrete configuration. -/
theorem claim_C9_witness :
    generate_makefile 2025 "demo" "demo" ["src/main.c"] ["./include"] [] [] =
      generate_makefile 2025 "demo" "demo" ["src/main.c"] ["./include"] [] [] :=
  claim_C9 2025 2025 "demo" "demo" "demo" "demo" ["src/main.c"] ["src/main.c"]
    ["./include"] ["./include"] [] [] [] [] rfl rfl rfl rfl rfl rfl rfl

/-- C1 counterexample: the target name `clean` is not listed in the
`.PHONY` declaration, with or without tests (only `fclean` is, and `clean`
is not one of its space-separated entries). -/
theorem claim_C1_counterexample :
    "clean" ∉ spaceSplit (phony_targets [])
    ∧ "clean" ∉ spaceSplit (phony_targets ["tests/test_main.c"]) := by
  constructor
  · decide
  · decide

/-- C1 amended: the `.PHONY` line closes the rendered Makefile and lists
exactly `fclean re all cs ban debug` (plus `tests_run` when test files are
present); the target names `all, fclean, re, cs, ban, debug` all appear,
but `clean` is omitted. -/
theorem claim_C1_amended (tests : List String) :
    (∀ tname ∈ ["all", "fclean", "re", "cs", "ban", "debug"],
      tname ∈ spaceSplit (phony_targets tests))
    ∧ (tests.isEmpty = false → "tests_run" ∈ spaceSplit (phony_targets tests))
    ∧ "clean" ∉ spaceSplit (phony_targets tests)
    ∧ ∀ (year : Nat) (pn bn : String) (srcs incs flags : List String),
      ∃ pre, generate_makefile year pn bn srcs incs flags tests =
        pre ++ (".PHONY: " ++ phony_targets tests ++ "\n") := by
  have hsplit : ∀ (year : Nat) (pn bn : String) (srcs incs flags : List String),
      ∃ pre, generate_makefile year pn bn srcs incs flags tests =
        pre ++ (".PHONY: " ++ phony_targets tests ++ "\n") := by
    intro year pn bn srcs incs flags
    unfold generate_makefile makefilePieces
    rw [strJoin_append]
    exact ⟨_, rfl⟩
  by_cases hte : tests.isEmpty
  · have hp : phony_targets tests = "fclean re all cs ban debug" := by
      unfold phony_targets
      rw [if_pos hte]
      decide
    refine ⟨?_, ?_, ?_, hsplit⟩
    · rw [hp]; decide
    · intro hfalse; rw [hte] at hfalse; cases hfalse
    · rw [hp]; decide
  · have hp : phony_targets tests = "fclean re all cs ban debug tests_run" := by
      unfold phony_targets
      rw [if_neg hte]
      decide
    refine ⟨?_, ?_, ?_, hsplit⟩
    · rw [hp]; decide
    · intro _; rw [hp]; decide
    · rw [hp]; decide

/-- Witness for the amended C1 at a one-test-file configuration. -/
theorem claim_C1_witness :
    "tests_run" ∈ spaceSplit (phony_targets ["tests/test_main.c"]) :=
  (claim_C1_amended ["tests/test_main.c"]).2.1 (by decide)


/-- C3: with no test files configured, the rendered Makefile text contains
none of the test-section variable names `TESTS`, `SRC_NO_MAIN`,
`TEST_NAME`, `TEST_OBJ`, no `tests_run` target and no `tests_run` phony
entry — provided, as the claim tacitly assumes, that the user-chosen
names, files, directories and flags do not themselves contain those
tokens. -/
theorem claim_C3 (year : Nat) (pn bn : String) (srcs incs flags : List String)
    (h : ∀ tok ∈ testTokens, ¬ occursIn tok pn ∧ ¬ occursIn tok bn ∧
      ∀ f ∈ srcs ++ incs ++ flags, ¬ occursIn tok f) :
    ∀ tok ∈ testTokens, ¬ occursIn tok (generate_makefile year pn bn srcs incs flags []) := by
  intro tok htok
  obtain ⟨hpn, hbn, hfiles⟩ := h tok htok
  have hsrcsM : ∀ f ∈ srcs, ¬ occursIn tok f := fun f hf =>
    hfiles f (List.mem_append_left _ (List.mem_append_left _ hf))
  have hincsM : ∀ f ∈ incs, ¬ occursIn tok f := fun f hf =>
    hfiles f (List.mem_append_left _ (List.mem_append_right _ hf))
  have hflagsM : ∀ f ∈ flags, ¬ occursIn tok f := fun f hf =>
    hfiles f (List.mem_append_right _ hf)
  apply not_occursIn
  simp only [testTokens, List.mem_cons, List.not_mem_nil, or_false] at htok
  rcases htok with rfl | rfl | rfl | rfl | rfl
  · have hpn0 : occCount ('T' :: ['E', 'S', 'T', 'S']) pn.data = 0 :=
      occCount_zero_of_not_occursIn _ _ hpn
    have hbn0 : occCount ('T' :: ['E', 'S', 'T', 'S']) bn.data = 0 :=
      occCount_zero_of_not_occursIn _ _ hbn
    have hsrcs0 : ∀ f ∈ srcs, occCount ('T' :: ['E', 'S', 'T', 'S']) f.data = 0 := fun f hf =>
      occCount_zero_of_not_occursIn _ _ (hsrcsM f hf)
    have hincs0 : ∀ f ∈ incs, occCount ('T' :: ['E', 'S', 'T', 'S']) f.data = 0 := fun f hf =>
      occCount_zero_of_not_occursIn _ _ (hincsM f hf)
    have hflags0 : ∀ f ∈ flags, occCount ('T' :: ['E', 'S', 'T', 'S']) f.data = 0 := fun f hf =>
      occCount_zero_of_not_occursIn _ _ (hflagsM f hf)
    have hh := occCount_header_zero 'T' ['E', 'S', 'T', 'S'] year pn (by decide) (by decide)
      (by decide) (by decide) (by decide) (by decide) hpn0
    have hcf := occCount_cflagsPiece_zero 'T' ['E', 'S', 'T', 'S'] incs flags (by decide)
      (by decide) (by decide) (by decide) (by decide) (by decide) hincs0 hflags0
    have hsl := occCount_labeledList_zero 'T' ['E', 'S', 'T', 'S'] "SRC = " srcs (by decide)
      (by decide) (by decide) (by decide) (by decide) hsrcs0
    have hnp := occCount_namePiece_zero 'T' ['E', 'S', 'T', 'S'] bn (by decide) (by decide)
      (by decide) hbn0
    show occCount ('T' :: ['E', 'S', 'T', 'S'])
      (generate_makefile year pn bn srcs incs flags []).data = 0
    rw [occCount_render _ (by decide) (by decide) (by decide)]
    simp +decide [makefilePieces, hh]
    exact ⟨hcf, hsl, hnp⟩
  · have hpn0 : occCount ('S' :: ['R', 'C', '_', 'N', 'O', '_', 'M', 'A', 'I', 'N']) pn.data = 0 :=
      occCount_zero_of_not_occursIn _ _ hpn
    have hbn0 : occCount ('S' :: ['R', 'C', '_', 'N', 'O', '_', 'M', 'A', 'I', 'N']) bn.data = 0 :=
      occCount_zero_of_not_occursIn _ _ hbn
    have hsrcs0 : ∀ f ∈ srcs, occCount ('S' :: ['R', 'C', '_', 'N', 'O', '_', 'M', 'A', 'I', 'N']) f.data = 0 := fun f hf =>
      occCount_zero_of_not_occursIn _ _ (hsrcsM f hf)
    have hincs0 : ∀ f ∈ incs, occCount ('S' :: ['R', 'C', '_', 'N', 'O', '_', 'M', 'A', 'I', 'N']) f.data = 0 := fun f hf =>
      occCount_zero_of_not_occursIn _ _ (hincsM f hf)
    have hflags0 : ∀ f ∈ flags, occCount ('S' :: ['R', 'C', '_', 'N', 'O', '_', 'M', 'A', 'I', 'N']) f.data = 0 := fun f hf =>
      occCount_zero_of_not_occursIn _ _ (hflagsM f hf)
    have hh := occCount_header_zero 'S' ['R', 'C', '_', 'N', 'O', '_', 'M', 'A', 'I', 'N'] year pn (by decide) (by decide)
      (by decide) (by decide) (by decide) (by decide) hpn0
    have hcf := occCount_cflagsPiece_zero 'S' ['R', 'C', '_', 'N', 'O', '_', 'M', 'A', 'I', 'N'] incs flags (by decide)
      (by decide) (by decide) (by decide) (by decide) (by decide) hincs0 hflags0
    have hsl := occCount_labeledList_zero 'S' ['R', 'C', '_', 'N', 'O', '_', 'M', 'A', 'I', 'N'] "SRC = " srcs (by decide)
      (by decide) (by decide) (by decide) (by decide) hsrcs0
    have hnp := occCount_namePiece_zero 'S' ['R', 'C', '_', 'N', 'O', '_', 'M', 'A', 'I', 'N'] bn (by decide) (by decide)
      (by decide) hbn0
    show occCount ('S' :: ['R', 'C', '_', 'N', 'O', '_', 'M', 'A', 'I', 'N'])
      (generate_makefile year pn bn srcs incs flags []).data = 0
    rw [occCount_render _ (by decide) (by decide) (by decide)]
    simp +decide [makefilePieces, hh]
    exact ⟨hcf, hsl, hnp⟩
  · have hpn0 : occCount ('T' :: ['E', 'S', 'T', '_', 'N', 'A', 'M', 'E']) pn.data = 0 :=
      occCount_zero_of_not_occursIn _ _ hpn
    have hbn0 : occCount ('T' :: ['E', 'S', 'T', '_', 'N', 'A', 'M', 'E']) bn.data = 0 :=
      occCount_zero_of_not_occursIn _ _ hbn
    have hsrcs0 : ∀ f ∈ srcs, occCount ('T' :: ['E', 'S', 'T', '_', 'N', 'A', 'M', 'E']) f.data = 0 := fun f hf =>
      occCount_zero_of_not_occursIn _ _ (hsrcsM f hf)
    have hincs0 : ∀ f ∈ incs, occCount ('T' :: ['E', 'S', 'T', '_', 'N', 'A', 'M', 'E']) f.data = 0 := fun f hf =>
      occCount_zero_of_not_occursIn _ _ (hincsM f hf)
    have hflags0 : ∀ f ∈ flags, occCount ('T' :: ['E', 'S', 'T', '_', 'N', 'A', 'M', 'E']) f.data = 0 := fun f hf =>
      occCount_zero_of_not_occursIn _ _ (hflagsM f hf)
    have hh := occCount_header_zero 'T' ['E', 'S', 'T', '_', 'N', 'A', 'M', 'E'] year pn (by decide) (by decide)
      (by decide) (by decide) (by decide) (by decide) hpn0
    have hcf := occCount_cflagsPiece_zero 'T' ['E', 'S', 'T', '_', 'N', 'A', 'M', 'E'] incs flags (by decide)
      (by decide) (by decide) (by decide) (by decide) (by decide) hincs0 hflags0
    have hsl := occCount_labeledList_zero 'T' ['E', 'S', 'T', '_', 'N', 'A', 'M', 'E'] "SRC = " srcs (by decide)
      (by decide) (by decide) (by decide) (by decide) hsrcs0
    have hnp := occCount_namePiece_zero 'T' ['E', 'S', 'T', '_', 'N', 'A', 'M', 'E'] bn (by decide) (by decide)
      (by decide) hbn0
    show occCount ('T' :: ['E', 'S', 'T', '_', 'N', 'A', 'M', 'E'])
      (generate_makefile year pn bn srcs incs flags []).data = 0
    rw [occCount_render _ (by decide) (by decide) (by decide)]
    simp +decide [makefilePieces, hh]
    exact ⟨hcf, hsl, hnp⟩
  · have hpn0 : occCount ('T' :: ['E', 'S', 'T', '_', 'O', 'B', 'J']) pn.data = 0 :=
      occCount_zero_of_not_occursIn _ _ hpn
    have hbn0 : occCount ('T' :: ['E', 'S', 'T', '_', 'O', 'B', 'J']) bn.data = 0 :=
      occCount_zero_of_not_occursIn _ _ hbn
    have hsrcs0 : ∀ f ∈ srcs, occCount ('T' :: ['E', 'S', 'T', '_', 'O', 'B', 'J']) f.data = 0 := fun f hf =>
      occCount_zero_of_not_occursIn _ _ (hsrcsM f hf)
    have hincs0 : ∀ f ∈ incs, occCount ('T' :: ['E', 'S', 'T', '_', 'O', 'B', 'J']) f.data = 0 := fun f hf =>
      occCount_zero_of_not_occursIn _ _ (hincsM f hf)
    have hflags0 : ∀ f ∈ flags, occCount ('T' :: ['E', 'S', 'T', '_', 'O', 'B', 'J']) f.data = 0 := fun f hf =>
      occCount_zero_of_not_occursIn _ _ (hflagsM f hf)
    have hh := occCount_header_zero 'T' ['E', 'S', 'T', '_', 'O', 'B', 'J'] year pn (by decide) (by decide)
      (by decide) (by decide) (by decide) (by decide) hpn0
    have hcf := occCount_cflagsPiece_zero 'T' ['E', 'S', 'T', '_', 'O', 'B', 'J'] incs flags (by decide)
      (by decide) (by decide) (by decide) (by decide) (by decide) hincs0 hflags0
    have hsl := occCount_labeledList_zero 'T' ['E', 'S', 'T', '_', 'O', 'B', 'J'] "SRC = " srcs (by decide)
      (by decide) (by decide) (by decide) (by decide) hsrcs0
    have hnp := occCount_namePiece_zero 'T' ['E', 'S', 'T', '_', 'O', 'B', 'J'] bn (by decide) (by decide)
      (by decide) hbn0
    show occCount ('T' :: ['E', 'S', 'T', '_', 'O', 'B', 'J'])
      (generate_makefile year pn bn srcs incs flags []).data = 0
    rw [occCount_render _ (by decide) (by decide) (by decide)]
    simp +decide [makefilePieces, hh]
    exact ⟨hcf, hsl, hnp⟩
  · have hpn0 : occCount ('t' :: ['e', 's', 't', 's', '_', 'r', 'u', 'n']) pn.data = 0 :=
      occCount_zero_of_not_occursIn _ _ hpn
    have hbn0 : occCount ('t' :: ['e', 's', 't', 's', '_', 'r', 'u', 'n']) bn.data = 0 :=
      occCount_zero_of_not_occursIn _ _ hbn
    have hsrcs0 : ∀ f ∈ srcs, occCount ('t' :: ['e', 's', 't', 's', '_', 'r', 'u', 'n']) f.data = 0 := fun f hf =>
      occCount_zero_of_not_occursIn _ _ (hsrcsM f hf)
    have hincs0 : ∀ f ∈ incs, occCount ('t' :: ['e', 's', 't', 's', '_', 'r', 'u', 'n']) f.data = 0 := fun f hf =>
      occCount_zero_of_not_occursIn _ _ (hincsM f hf)
    have hflags0 : ∀ f ∈ flags, occCount ('t' :: ['e', 's', 't', 's', '_', 'r', 'u', 'n']) f.data = 0 := fun f hf =>
      occCount_zero_of_not_occursIn _ _ (hflagsM f hf)
    have hh := occCount_header_zero 't' ['e', 's', 't', 's', '_', 'r', 'u', 'n'] year pn (by decide) (by decide)
      (by decide) (by decide) (by decide) (by decide) hpn0
    have hcf := occCount_cflagsPiece_zero 't' ['e', 's', 't', 's', '_', 'r', 'u', 'n'] incs flags (by decide)
      (by decide) (by decide) (by decide) (by decide) (by decide) hincs0 hflags0
    have hsl := occCount_labeledList_zero 't' ['e', 's', 't', 's', '_', 'r', 'u', 'n'] "SRC = " srcs (by decide)
      (by decide) (by decide) (by decide) (by decide) hsrcs0
    have hnp := occCount_namePiece_zero 't' ['e', 's', 't', 's', '_', 'r', 'u', 'n'] bn (by decide) (by decide)
      (by decide) hbn0
    show occCount ('t' :: ['e', 's', 't', 's', '_', 'r', 'u', 'n'])
      (generate_makefile year pn bn srcs incs flags []).data = 0
    rw [occCount_render _ (by decide) (by decide) (by decide)]
    simp +decide [makefilePieces, hh]
    exact ⟨hcf, hsl, hnp⟩

/-- Witness for C3: the `TESTS` token does not occur in the rendered text
of a concrete test-free configuration. -/
theorem claim_C3_witness :
    ¬ occursIn "TESTS" (generate_makefile 2025 "demo" "demo" ["src/main.c"]
      ["./include"] [] []) :=
  claim_C3 2025 "demo" "demo" ["src/main.c"] ["./include"] [] (by decide)
    "TESTS" (by decide)


/-- Prepending one separator adds exactly one occurrence: no later
occurrence can start inside the separator because its head character `' '`
appears only at its first position. -/
theorem occCount_contSep_prepend (l : List Char) :
    occCount contSep.data (contSep.data ++ l) = 1 + occCount contSep.data l := by
  show occCount (' ' :: ['\\', '\n', '\t', '\t'])
    (' ' :: '\\' :: '\n' :: '\t' :: '\t' :: l) = _
  rw [occCount_cons_eq, if_pos ⟨l, rfl⟩]
  rw [occCount_cons_head_ne _ _ _ _ (by decide), occCount_cons_head_ne _ _ _ _ (by decide),
    occCount_cons_head_ne _ _ _ _ (by decide), occCount_cons_head_ne _ _ _ _ (by decide)]
  rfl

/-- Joining `N ≥ 1` separator-free, non-empty pieces with the
line-continuation separator produces exactly `N - 1` separator
occurrences. -/
theorem occCount_joinSep_contSep (L : List String)
    (hfiles : ∀ f ∈ L, f.data ≠ [] ∧ ∀ c ∈ f.data, c ∉ contSep.data) :
    L ≠ [] → occCount contSep.data (joinSep contSep L).data = L.length - 1 := by
  induction L with
  | nil => intro hne; exact absurd rfl hne
  | cons p L2 ih =>
    intro _
    have hp := hfiles p (List.mem_cons_self p L2)
    have hsp : ' ' ∉ p.data := fun hm => (hp.2 ' ' hm) (by decide)
    cases L2 with
    | nil =>
      show occCount (' ' :: ['\\', '\n', '\t', '\t']) p.data = 1 - 1
      exact occCount_zero_of_head_notMem _ _ _ hsp
    | cons p2 L3 =>
      show occCount contSep.data
        ((p ++ contSep ++ joinSep contSep (p2 :: L3))).data = (p :: p2 :: L3).length - 1
      rw [String.data_append, String.data_append, List.append_assoc]
      rw [occCount_append_eq _ (by decide) p.data
        (contSep.data ++ (joinSep contSep (p2 :: L3)).data)
        (spanLall _ _ _ (fun c hc => hp.2 c hc))]
      have h0 : occCount contSep.data p.data = 0 := by
        show occCount (' ' :: ['\\', '\n', '\t', '\t']) p.data = 0
        exact occCount_zero_of_head_notMem _ _ _ hsp
      rw [h0, occCount_contSep_prepend,
        ih (fun f hf => hfiles f (List.mem_cons_of_mem p hf)) (by simp)]
      simp [List.length_cons]
      omega

/-- `strJoin` splits around any member piece. -/
theorem strJoin_mem_split (x : String) : ∀ L : List String, x ∈ L →
    ∃ pre post, strJoin L = pre ++ (x ++ post) := by
  intro L
  induction L with
  | nil => intro hx; cases hx
  | cons s L2 ih =>
    intro hx
    rcases List.mem_cons.mp hx with rfl | hx2
    · refine ⟨"", strJoin L2, ?_⟩
      rw [strJoin_cons]
      apply String.ext
      rfl
    · obtain ⟨pre, post, hs⟩ := ih hx2
      refine ⟨s ++ pre, post, ?_⟩
      rw [strJoin_cons, hs, ← String.append_assoc]

/-- `strJoin` splits around any contiguous block of pieces. -/
theorem strJoin_infix_split (L M s t : List String) (h : s ++ M ++ t = L) :
    ∃ pre post, strJoin L = pre ++ (strJoin M ++ post) := by
  refine ⟨strJoin s, strJoin t, ?_⟩
  rw [← h, strJoin_append, strJoin_append, String.append_assoc]

/-- C8: the `SRC` (and `TESTS`) variable value joins the configured files
with exactly `N - 1` line-continuation separators when there are `N > 1`
files and none when there is a single file (stated as `N - 1` with
truncated subtraction), for files that are non-empty and free of the
separator characters; and the rendered text contains the corresponding
`SRC = `/`TESTS = ` definition built from exactly that joined value. -/
theorem claim_C8 :
    (∀ files : List String, files ≠ [] →
      (∀ f ∈ files, f.data ≠ [] ∧ ∀ c ∈ f.data, c ∉ contSep.data) →
      occCount contSep.data (srcListStr files).data = files.length - 1)
    ∧ (∀ (year : Nat) (pn bn : String) (srcs incs flags tests : List String),
      ∃ pre post, generate_makefile year pn bn srcs incs flags tests =
        pre ++ (("SRC = " ++ srcListStr srcs ++ "\n\n") ++ post))
    ∧ (∀ (year : Nat) (pn bn t0 : String) (srcs incs flags ts : List String),
      ∃ pre post, generate_makefile year pn bn srcs incs flags (t0 :: ts) =
        pre ++ (("TESTS = " ++ srcListStr (t0 :: ts) ++ "\n\n") ++ post)) := by
  refine ⟨?_, ?_, ?_⟩
  · intro files hne hchars
    unfold srcListStr
    by_cases hlen : files.length > 1
    · rw [if_pos hlen]
      exact occCount_joinSep_contSep files hchars hne
    · rw [if_neg hlen]
      cases files with
      | nil => exact absurd rfl hne
      | cons f fs =>
        cases fs with
        | nil =>
          have hf := hchars f (List.mem_cons_self f [])
          have hsp : ' ' ∉ f.data := fun hm => (hf.2 ' ' hm) (by decide)
          show occCount (' ' :: ['\\', '\n', '\t', '\t']) f.data = 0
          exact occCount_zero_of_head_notMem _ _ _ hsp
        | cons f2 fs2 =>
          exfalso
          apply hlen
          simp [List.length_cons]
  · intro year pn bn srcs incs flags tests
    exact strJoin_mem_split _ _ (by simp [makefilePieces])
  · intro year pn bn t0 srcs incs flags ts
    exact strJoin_mem_split _ _ (by simp [makefilePieces])

/-- Witness for C8: two files give one separator, one file gives none. -/
theorem claim_C8_witness :
    occCount contSep.data (srcListStr ["src/a.c", "src/b.c"]).data = 1 :=
  claim_C8.1 ["src/a.c", "src/b.c"] (by decide) (by decide)


/-- C4: with a non-empty test-file list, the rendered Makefile text
contains exactly one occurrence of the `tests_run:` target header, and the
text decomposes around the complete `tests_run` rule, whose action list
ends with the two coverage-tool invocations, the second carrying the
branch-coverage flag (see `testsRunChunk`) — under the tacit assumption
that the user-chosen fields do not contain the `tests_run:` token. -/
theorem claim_C4 (year : Nat) (pn bn t0 : String) (srcs incs flags ts : List String)
    (hpn : ¬ occursIn "tests_run:" pn) (hbn : ¬ occursIn "tests_run:" bn)
    (hfiles : ∀ f ∈ srcs ++ incs ++ flags ++ (t0 :: ts), ¬ occursIn "tests_run:" f) :
    occCount ("tests_run:" : String).data
      (generate_makefile year pn bn srcs incs flags (t0 :: ts)).data = 1
    ∧ ∃ pre post, generate_makefile year pn bn srcs incs flags (t0 :: ts) =
        pre ++ (testsRunChunk ++ post) := by
  constructor
  · have hpn0 : occCount ('t' :: ['e', 's', 't', 's', '_', 'r', 'u', 'n', ':']) pn.data = 0 :=
      occCount_zero_of_not_occursIn _ _ hpn
    have hbn0 : occCount ('t' :: ['e', 's', 't', 's', '_', 'r', 'u', 'n', ':']) bn.data = 0 :=
      occCount_zero_of_not_occursIn _ _ hbn
    have hsrcs0 : ∀ f ∈ srcs, occCount ('t' :: ['e', 's', 't', 's', '_', 'r', 'u', 'n', ':']) f.data = 0 := fun f hf =>
      occCount_zero_of_not_occursIn _ _ (hfiles f (List.mem_append_left _
        (List.mem_append_left _ (List.mem_append_left _ hf))))
    have hincs0 : ∀ f ∈ incs, occCount ('t' :: ['e', 's', 't', 's', '_', 'r', 'u', 'n', ':']) f.data = 0 := fun f hf =>
      occCount_zero_of_not_occursIn _ _ (hfiles f (List.mem_append_left _
        (List.mem_append_left _ (List.mem_append_right _ hf))))
    have hflags0 : ∀ f ∈ flags, occCount ('t' :: ['e', 's', 't', 's', '_', 'r', 'u', 'n', ':']) f.data = 0 := fun f hf =>
      occCount_zero_of_not_occursIn _ _ (hfiles f (List.mem_append_left _
        (List.mem_append_right _ hf)))
    have htests0 : ∀ f ∈ t0 :: ts, occCount ('t' :: ['e', 's', 't', 's', '_', 'r', 'u', 'n', ':']) f.data = 0 := fun f hf =>
      occCount_zero_of_not_occursIn _ _ (hfiles f (List.mem_append_right _ hf))
    have hh := occCount_header_zero 't' ['e', 's', 't', 's', '_', 'r', 'u', 'n', ':'] year pn (by decide) (by decide)
      (by decide) (by decide) (by decide) (by decide) hpn0
    have hcf := occCount_cflagsPiece_zero 't' ['e', 's', 't', 's', '_', 'r', 'u', 'n', ':'] incs flags (by decide)
      (by decide) (by decide) (by decide) (by decide) (by decide) hincs0 hflags0
    have hsl := occCount_labeledList_zero 't' ['e', 's', 't', 's', '_', 'r', 'u', 'n', ':'] "SRC = " srcs (by decide)
      (by decide) (by decide) (by decide) (by decide) hsrcs0
    have hsl2 := occCount_labeledList_zero 't' ['e', 's', 't', 's', '_', 'r', 'u', 'n', ':'] "TESTS = " (t0 :: ts) (by decide)
      (by decide) (by decide) (by decide) (by decide) htests0
    have hnp := occCount_namePiece_zero 't' ['e', 's', 't', 's', '_', 'r', 'u', 'n', ':'] bn (by decide) (by decide)
      (by decide) hbn0
    show occCount ('t' :: ['e', 's', 't', 's', '_', 'r', 'u', 'n', ':'])
      (generate_makefile year pn bn srcs incs flags (t0 :: ts)).data = 1
    rw [occCount_render _ (by decide) (by decide) (by decide)]
    have hcf2 : occCount ['t', 'e', 's', 't', 's', '_', 'r', 'u', 'n', ':']
        ('C' :: 'F' :: 'L' :: 'A' :: 'G' :: 'S' :: ' ' :: '=' :: ' '
          :: ((cflagsStr incs flags).data ++ ['\n', '\n'])) = 0 := hcf
    have hslA : occCount ['t', 'e', 's', 't', 's', '_', 'r', 'u', 'n', ':']
        ('S' :: 'R' :: 'C' :: ' ' :: '=' :: ' '
          :: ((srcListStr srcs).data ++ ['\n', '\n'])) = 0 := hsl
    have hslB : occCount ['t', 'e', 's', 't', 's', '_', 'r', 'u', 'n', ':']
        ('T' :: 'E' :: 'S' :: 'T' :: 'S' :: ' ' :: '=' :: ' '
          :: ((srcListStr (t0 :: ts)).data ++ ['\n', '\n'])) = 0 := hsl2
    have hnp2 : occCount ['t', 'e', 's', 't', 's', '_', 'r', 'u', 'n', ':']
        ('N' :: 'A' :: 'M' :: 'E' :: ' ' :: '=' :: ' '
          :: (bn.data ++ ['\n', '\n'])) = 0 := hnp
    have hph : phony_targets (t0 :: ts) = "fclean re all cs ban debug tests_run" := by
      unfold phony_targets
      rw [List.isEmpty_cons]
      decide
    have hph2 : occCount ['t', 'e', 's', 't', 's', '_', 'r', 'u', 'n', ':']
        ('.' :: 'P' :: 'H' :: 'O' :: 'N' :: 'Y' :: ':' :: ' '
          :: ((phony_targets (t0 :: ts)).data ++ ['\n'])) = 0 := by
      rw [hph]
      decide
    simp +decide [makefilePieces, hh]
    rw [hcf2, hslA, hslB, hnp2, hph2]
    decide
  · obtain ⟨pre, post, hs⟩ := strJoin_infix_split
      (makefilePieces year pn bn srcs incs flags (t0 :: ts))
      ["tests_run: $(TEST_OBJ)\n",
       "\t$(CC) -o $(TEST_NAME) $(TEST_OBJ) -g $(CFLAGS) " ++ CRITERION_FLAGS ++ "\n",
       "\t./$(TEST_NAME)\n",
       "\tgcovr --exclude tests/\n",
       "\tgcovr --exclude tests/ --branches\n\n"]
      [generate_makefile_header year pn, "\n\n",
       "CC = " ++ DEFAULT_CC ++ "\n\n",
       "CFLAGS = " ++ cflagsStr incs flags ++ "\n\n",
       "SRC = " ++ srcListStr srcs ++ "\n\n",
       "TESTS = " ++ srcListStr (t0 :: ts) ++ "\n\n",
       "SRC_NO_MAIN = $(filter-out %main.c, $(SRC))\n\n",
       "NAME = " ++ bn ++ "\n\n", "BUILD_DIR = objects\n\n",
       "TEST_NAME = unit_tests\n\n",
       "OBJ = $(SRC:%.c=$(BUILD_DIR)/%.o)\n\n",
       "TEST_OBJ = $(TESTS:%.c=$(BUILD_DIR)/%.o) $(SRC_NO_MAIN:%.c=$(BUILD_DIR)/%.o)\n\n",
       "all: $(NAME)\n\n", "$(NAME): $(OBJ)\n",
       "\t$(CC) -o $(NAME) $(OBJ) -g $(CFLAGS)\n\n"]
      ["$(BUILD_DIR)/%.o: %.c\n", "\t@mkdir -p $(dir $@)\n",
       "\t$(CC) $(CFLAGS) -c $< -o $@\n\n",
       "clean:\n", "\trm -rf $(BUILD_DIR)\n", "\trm -Rf *.o\n",
       "\trm -rf *.gcda *.gcno\n",
       "\n", "fclean: clean\n", "\trm -f $(NAME)\n",
       "\trm -f $(TEST_NAME)\n",
       "\trm -Rf #*#\n", "\trm -Rf #~\n\n", "re: fclean all\n\n",
       "cs: clean fclean\n", "\tcoding-style . .\n", "\tcat *.log\n",
       "\tsudo rm *.log\n\n",
       "ban:\n", "\tbanned_functions write\n\n",
       "debug:\n", "\t@echo \"CC: $(CC)\"\n", "\t@echo \"CFLAGS: $(CFLAGS)\"\n",
       "\t@echo \"SRC: $(SRC)\"\n", "\t@echo \"OBJ: $(OBJ)\"\n",
       "\t@echo \"TESTS: $(TESTS)\"\n", "\t@echo \"TEST_OBJ: $(TEST_OBJ)\"\n",
       "\t@echo \"SRC_NO_MAIN: $(SRC_NO_MAIN)\"\n",
       "\t@echo \"BUILD_DIR: $(BUILD_DIR)\"\n\n",
       ".PHONY: " ++ phony_targets (t0 :: ts) ++ "\n"]
      (by simp [makefilePieces])
    refine ⟨pre, post, ?_⟩
    show strJoin (makefilePieces year pn bn srcs incs flags (t0 :: ts)) = _
    rw [hs]
    rw [show strJoin ["tests_run: $(TEST_OBJ)\n",
      "\t$(CC) -o $(TEST_NAME) $(TEST_OBJ) -g $(CFLAGS) " ++ CRITERION_FLAGS ++ "\n",
      "\t./$(TEST_NAME)\n",
      "\tgcovr --exclude tests/\n",
      "\tgcovr --exclude tests/ --branches\n\n"] = testsRunChunk from by decide]

/-- Witness for C4 at a concrete one-test-file configuration. -/
theorem claim_C4_witness :
    occCount ("tests_run:" : String).data
      (generate_makefile 2025 "demo" "demo" ["src/main.c"] ["./include"] []
        ["tests/test_main.c"]).data = 1 :=
  (claim_C4 2025 "demo" "demo" "tests/test_main.c" ["src/main.c"] ["./include"] [] []
    (by decide) (by decide) (by decide)).1

end Gen
